import Mathlib

/-!
Verification of the Simon Says game engine (`GameContext` provider).

The definitions below are a shallow embedding of the game session state
machine: the React `useState` fields become a `GameSession` record, the
provider functions (`calculateMultiplier`, `handleTileClick`,
`handleGameOver`, `stopGame`, `startGame`, `resetGame`, `addToSequence`,
`playSequence`, `setDifficulty`) become pure functions on that record, and
side effects (tile flashes, sounds, database writes, scheduled timers)
become an explicit list of emitted `Effect`s.  Asynchronous timer callbacks
(the 100 ms start delay, the per-tile reveal timeouts, the 1000 ms
inter-round delay) are flattened into discrete steps of a transition
relation: each function models the accumulated state change observable once
its timers have fired.
-/

namespace SimonSays

/-- Game difficulty levels (`type Difficulty = "easy" | "medium" | "hard"`). -/
inductive Difficulty
  | easy
  | medium
  | hard
deriving DecidableEq, Repr

/-- The states of the game state machine (`enum GameState`). -/
inductive GameState
  | Idle
  | ShowingSequence
  | WaitingForInput
  | GameOver
deriving DecidableEq, Repr

/-- Timing and scoring parameters per difficulty (`getDifficultySettings`
return shape). -/
structure DifficultySettings where
  flashDelay : Nat
  pauseDelay : Nat
  baseMultiplier : Nat
deriving DecidableEq, Repr

/-- `getDifficultySettings`: easy (400, 400, 1), medium (300, 300, 2),
hard (200, 200, 3).  The source's `default` branch duplicates the easy
case and is unreachable for the three-valued enum. -/
def getDifficultySettings : Difficulty → DifficultySettings
  | Difficulty.easy => ⟨400, 400, 1⟩
  | Difficulty.medium => ⟨300, 300, 2⟩
  | Difficulty.hard => ⟨200, 200, 3⟩

/-- `calculateMultiplier(sequenceLength, baseMultiplier)`: a length bonus
of 6 for length ≥ 20, else 5 for ≥ 16, else 4 for ≥ 13, else 3 for ≥ 10,
else 2 for ≥ 5, else 1, multiplied by the difficulty base multiplier. -/
def calculateMultiplier (sequenceLength : Nat) (baseMultiplier : Nat) : Nat :=
  let lengthMultiplier : Nat :=
    if sequenceLength ≥ 20 then 6
    else if sequenceLength ≥ 16 then 5
    else if sequenceLength ≥ 13 then 4
    else if sequenceLength ≥ 10 then 3
    else if sequenceLength ≥ 5 then 2
    else 1
  baseMultiplier * lengthMultiplier

/-- The mutable provider state of `GameProvider`: the `useState` fields
`state`, `sequence`, `userSequence`, `score`, `highScore`, `multiplier`
and `difficulty`.  Tile indices are modelled as `Int` so that arbitrary
(also negative or out-of-range) submitted indices can be expressed. -/
structure GameSession where
  state : GameState
  sequence : List Int
  userSequence : List Int
  score : Nat
  highScore : Nat
  multiplier : Nat
  difficulty : Difficulty
deriving DecidableEq, Repr

/-- Side effects emitted by the provider functions: presentation effects
(`setActiveTile`, `playTileSound`), database writes (the `high_scores`
upsert of `saveHighScore` and the `games` insert of `handleGameOver`),
and the scheduling of the 1000 ms inter-round `addToSequence` timer. -/
inductive Effect
  | setActiveTile (tile : Int)
  | playTileSound (tile : Int)
  | saveHighScore (score : Nat) (difficulty : Difficulty)
  | insertGameRecord (score : Nat) (difficulty : Difficulty) (streak : Int)
  | scheduleAddToSequence
deriving DecidableEq, Repr

/-- Initial provider state: `Idle`, empty lists, `score = 0`,
`highScore = 0`, `multiplier = 1`; the initial difficulty of the source is
`"easy"`, kept here as a parameter so that the state after a `setDifficulty`
call in `Idle` is expressible directly. -/
def initialSession (d : Difficulty) : GameSession :=
  { state := GameState.Idle
    sequence := []
    userSequence := []
    score := 0
    highScore := 0
    multiplier := 1
    difficulty := d }

/-- `handleGameOver`: sets the state to `GameOver` unconditionally and, only
when a user is authenticated (`user?.id && session`), inserts a `games`
record with the current score, difficulty and `streak: sequence.length - 1`
(a JavaScript subtraction, hence `-1` for an empty sequence). -/
def handleGameOver (authed : Bool) (s : GameSession) : GameSession × List Effect :=
  ({ s with state := GameState.GameOver },
   if authed then
     [Effect.insertGameRecord s.score s.difficulty ((s.sequence.length : Int) - 1)]
   else [])

/-- `handleTileClick(tileIndex)`: ignored outside `WaitingForInput`;
otherwise appends the index to `userSequence`, flashes the tile and plays
its sound, then either (a) game-overs on a mismatch against
`sequence[userSequence.length]` (a JavaScript lookup: an out-of-bounds
position yields `undefined`, which never equals a submitted number, modelled
by comparing with the optional `sequence[pos]?`), or (b) on completing the
whole sequence recomputes the multiplier, adds `Math.round(1 * multiplier)`
points, updates/saves the high score when strictly exceeded, and schedules
the inter-round `addToSequence` timer, or (c) just waits for more input. -/
def handleTileClick (authed : Bool) (s : GameSession) (tileIndex : Int) :
    GameSession × List Effect :=
  if s.state ≠ GameState.WaitingForInput then (s, [])
  else
    let newUserSequence := s.userSequence ++ [tileIndex]
    let s1 := { s with userSequence := newUserSequence }
    let fx := [Effect.setActiveTile tileIndex, Effect.playTileSound tileIndex]
    if s.sequence[s.userSequence.length]? ≠ some tileIndex then
      let r := handleGameOver authed s1
      (r.1, fx ++ r.2)
    else if newUserSequence.length = s.sequence.length then
      let baseMultiplier := (getDifficultySettings s.difficulty).baseMultiplier
      let newMultiplier := calculateMultiplier s.sequence.length baseMultiplier
      let basePoints : Nat := 1
      let newScore := s.score + basePoints * newMultiplier
      let s2 := { s1 with
        multiplier := newMultiplier
        score := newScore
        highScore := if newScore > s.highScore then newScore else s.highScore }
      (s2, fx ++ (if newScore > s.highScore then
              [Effect.saveHighScore newScore s.difficulty] else [])
            ++ [Effect.scheduleAddToSequence])
    else (s1, fx)

/-- `stopGame`: cancels pending timers (`cleanup`, implicit here) and runs
`handleGameOver`; the source has no state precondition whatsoever. -/
def stopGame (authed : Bool) (s : GameSession) : GameSession × List Effect :=
  handleGameOver authed s

/-- `resetGame`: clears the session fields and returns to `Idle` without
emitting any events. -/
def resetGame (s : GameSession) : GameSession :=
  { s with
    sequence := []
    userSequence := []
    score := 0
    multiplier := (getDifficultySettings s.difficulty).baseMultiplier
    state := GameState.Idle }

/-- `startGame` followed by its 100 ms timer callback: resets all fields,
draws one random tile (passed as the parameter `newTile`), makes it the
whole sequence and enters the reveal phase (`playSequence` sets
`ShowingSequence`). -/
def startGame (s : GameSession) (newTile : Int) : GameSession :=
  { s with
    state := GameState.ShowingSequence
    sequence := [newTile]
    userSequence := []
    score := 0
    multiplier := (getDifficultySettings s.difficulty).baseMultiplier }

/-- `addToSequence` (the inter-round timer callback): appends one random
tile (parameter `newTile`) to the sequence, clears `userSequence`, and
re-enters the reveal phase over the whole extended sequence. -/
def addToSequence (s : GameSession) (newTile : Int) : GameSession :=
  { s with
    sequence := s.sequence ++ [newTile]
    userSequence := []
    state := GameState.ShowingSequence }

/-- Completion of the reveal phase: the last tile's clear-timeout of
`playSequence` sets `WaitingForInput`. -/
def revealDone (s : GameSession) : GameSession :=
  { s with state := GameState.WaitingForInput }

/-- `setDifficulty`: the raw `useState` setter, exposed directly in the
provider value — it updates the difficulty unconditionally, in every
state. -/
def setDifficulty (s : GameSession) (level : Difficulty) : GameSession :=
  { s with difficulty := level }

/-- The `disabled` condition of the `DifficultySelector` buttons in the UI
(`disabled={state !== GameState.Idle}`): difficulty selection is only
clickable while `Idle`. -/
def difficultySelectorDisabled (s : GameSession) : Bool :=
  s.state ≠ GameState.Idle

/-- One scheduled reveal step of `playSequence`: the tile it activates, the
times (in ms from the start of the pass) at which its flash timeout and its
clear timeout fire, and whether the clear timeout also performs the
transition to `WaitingForInput` (the source's `i === sequence.length - 1`
test). -/
structure RevealStep where
  tile : Int
  onAt : Nat
  offAt : Nat
  entersWaiting : Bool
deriving DecidableEq, Repr

/-- The timer schedule built by `playSequence(sequence)`: for the `i`-th
element, activation at `i * (flashDelay + pauseDelay)` and deactivation
`flashDelay` later, with the last element's clear timeout entering
`WaitingForInput`. -/
def revealSchedule (seq : List Int) (flashDelay pauseDelay : Nat) :
    List RevealStep :=
  seq.enum.map fun p =>
    { tile := p.2
      onAt := p.1 * (flashDelay + pauseDelay)
      offAt := p.1 * (flashDelay + pauseDelay) + flashDelay
      entersWaiting := p.1 == seq.length - 1 }

/-- Labelled transition relation of the game session: the externally
invocable commands (`startGame`, `handleTileClick`, `stopGame`,
`resetGame`, `setDifficulty`), the internal timer completions (end of a
reveal pass, the inter-round `addToSequence` timer), and the asynchronous
high-score fetch that overwrites `highScore` from the database. -/
inductive Step (authed : Bool) : GameSession → GameSession → Prop
  | start (s : GameSession) (t : Int) : Step authed s (startGame s t)
  | reveal (s : GameSession) (h : s.state = GameState.ShowingSequence) :
      Step authed s (revealDone s)
  | click (s : GameSession) (t : Int) :
      Step authed s (handleTileClick authed s t).1
  | addTile (s : GameSession) (t : Int)
      (h : s.state = GameState.WaitingForInput) :
      Step authed s (addToSequence s t)
  | stop (s : GameSession) : Step authed s (stopGame authed s).1
  | reset (s : GameSession) : Step authed s (resetGame s)
  | setDiff (s : GameSession) (d : Difficulty) :
      Step authed s (setDifficulty s d)
  | fetchHS (s : GameSession) (n : Nat) :
      Step authed s { s with highScore := n }

/-- States reachable from the provider's initial state. -/
inductive Reachable (authed : Bool) : GameSession → Prop
  | init : Reachable authed (initialSession Difficulty.easy)
  | step {s s' : GameSession} :
      Reachable authed s → Step authed s s' → Reachable authed s'

/-- `clickAll`: submit a list of tile indices one after the other. -/
def clickAll (authed : Bool) (s : GameSession) (inputs : List Int) :
    GameSession :=
  inputs.foldl (fun st t => (handleTileClick authed st t).1) s

/-- One successful round from the player's side: echo the entire current
sequence. -/
def completeRound (authed : Bool) (s : GameSession) : GameSession :=
  clickAll authed s s.sequence

/-- Play on from a `WaitingForInput` state: complete the current round,
then for each tile in `ts` let the inter-round timer append it, watch the
reveal, and complete that round too. -/
def playRounds (authed : Bool) (s : GameSession) : List Int → GameSession
  | [] => completeRound authed s
  | t :: ts =>
      playRounds authed (revealDone (addToSequence (completeRound authed s) t)) ts

/-- Inductive invariant of the step relation: during the reveal phase the
input buffer is empty, and while waiting for input the buffer coincides
with the corresponding initial segment of the sequence. -/
def SessionInv (s : GameSession) : Prop :=
  (s.state = GameState.ShowingSequence → s.userSequence = []) ∧
  (s.state = GameState.WaitingForInput →
    s.userSequence = s.sequence.take s.userSequence.length)

/-! ### Branch lemmas for `handleTileClick` -/

theorem handleTileClick_not_waiting (authed : Bool) (s : GameSession) (t : Int)
    (h : s.state ≠ GameState.WaitingForInput) :
    handleTileClick authed s t = (s, []) := by
  simp [handleTileClick, h]

theorem handleTileClick_mismatch (authed : Bool) (s : GameSession) (t : Int)
    (hw : s.state = GameState.WaitingForInput)
    (hm : s.sequence[s.userSequence.length]? ≠ some t) :
    handleTileClick authed s t =
      ({ s with userSequence := s.userSequence ++ [t]
                state := GameState.GameOver },
       [Effect.setActiveTile t, Effect.playTileSound t] ++
         (if authed then
            [Effect.insertGameRecord s.score s.difficulty
              ((s.sequence.length : Int) - 1)]
          else [])) := by
  simp [handleTileClick, hw, hm, handleGameOver]

theorem handleTileClick_complete (authed : Bool) (s : GameSession) (t : Int)
    (hw : s.state = GameState.WaitingForInput)
    (hm : s.sequence[s.userSequence.length]? = some t)
    (hl : s.userSequence.length + 1 = s.sequence.length) :
    handleTileClick authed s t =
      ({ s with
          userSequence := s.userSequence ++ [t]
          multiplier := calculateMultiplier s.sequence.length
            (getDifficultySettings s.difficulty).baseMultiplier
          score := s.score + calculateMultiplier s.sequence.length
            (getDifficultySettings s.difficulty).baseMultiplier
          highScore :=
            if s.score + calculateMultiplier s.sequence.length
                (getDifficultySettings s.difficulty).baseMultiplier > s.highScore
            then s.score + calculateMultiplier s.sequence.length
                (getDifficultySettings s.difficulty).baseMultiplier
            else s.highScore },
       [Effect.setActiveTile t, Effect.playTileSound t] ++
         (if s.score + calculateMultiplier s.sequence.length
              (getDifficultySettings s.difficulty).baseMultiplier > s.highScore
          then [Effect.saveHighScore
                 (s.score + calculateMultiplier s.sequence.length
                   (getDifficultySettings s.difficulty).baseMultiplier)
                 s.difficulty]
          else []) ++ [Effect.scheduleAddToSequence]) := by
  simp [handleTileClick, hw, hm, hl]

theorem handleTileClick_middle (authed : Bool) (s : GameSession) (t : Int)
    (hw : s.state = GameState.WaitingForInput)
    (hm : s.sequence[s.userSequence.length]? = some t)
    (hl : s.userSequence.length + 1 ≠ s.sequence.length) :
    handleTileClick authed s t =
      ({ s with userSequence := s.userSequence ++ [t] },
       [Effect.setActiveTile t, Effect.playTileSound t]) := by
  simp [handleTileClick, hw, hm, hl]


/-! ### C1: the scoring multiplier -/

/-- Claim C1: for every `baseMultiplier ≥ 1` and every sequence length,
`calculateMultiplier` returns `baseMultiplier` times a length bonus of 1
below 5, 2 on `[5,10)`, 3 on `[10,13)`, 4 on `[13,16)`, 5 on `[16,20)` and
6 from 20 on; for fixed `baseMultiplier` it is non-decreasing in the
sequence length, and it increases from one length to the next exactly at
the breakpoints 5, 10, 13, 16 and 20. -/
theorem calculateMultiplier_correct (b : Nat) (hb : 1 ≤ b) :
    (∀ n, calculateMultiplier n b =
      b * (if n < 5 then 1 else if n < 10 then 2 else if n < 13 then 3
           else if n < 16 then 4 else if n < 20 then 5 else 6)) ∧
    (∀ m n, m ≤ n → calculateMultiplier m b ≤ calculateMultiplier n b) ∧
    (∀ n, calculateMultiplier n b < calculateMultiplier (n + 1) b ↔
      (n + 1 = 5 ∨ n + 1 = 10 ∨ n + 1 = 13 ∨ n + 1 = 16 ∨ n + 1 = 20)) := by
  refine ⟨?_, ?_, ?_⟩
  · intro n
    simp only [calculateMultiplier]
    split_ifs <;> omega
  · intro m n hmn
    simp only [calculateMultiplier]
    split_ifs <;> omega
  · intro n
    simp only [calculateMultiplier]
    split_ifs <;> omega

/-- Witness for C1: monotonicity applied at `baseMultiplier = 2` between
lengths 3 and 7. -/
theorem calculateMultiplier_correct_witness :
    calculateMultiplier 3 2 ≤ calculateMultiplier 7 2 :=
  (calculateMultiplier_correct 2 (by decide)).2.1 3 7 (by decide)

/-! ### C4: input outside `WaitingForInput` is a complete no-op -/

/-- Claim C4: in every state other than `WaitingForInput` (in particular
`ShowingSequence`), a tile-click is a complete no-op — the session (state,
score, sequence and input buffer) is returned unchanged and no effect
(score, presentation or persistence) is emitted. -/
theorem submitTile_outside_waiting_noop (authed : Bool) (s : GameSession)
    (tileIndex : Int) (h : s.state ≠ GameState.WaitingForInput) :
    handleTileClick authed s tileIndex = (s, []) :=
  handleTileClick_not_waiting authed s tileIndex h

/-- Witness for C4: a click during the reveal of `[3,1,4]` changes
nothing. -/
theorem submitTile_outside_waiting_noop_witness :
    handleTileClick true
        { state := GameState.ShowingSequence, sequence := [3, 1, 4],
          userSequence := [], score := 2, highScore := 5, multiplier := 1,
          difficulty := Difficulty.easy } 4 =
      ({ state := GameState.ShowingSequence, sequence := [3, 1, 4],
         userSequence := [], score := 2, highScore := 5, multiplier := 1,
         difficulty := Difficulty.easy }, []) :=
  submitTile_outside_waiting_noop true _ 4 (by decide)

/-! ### C3: mismatching input, including out-of-range indices -/

/-- Claim C3: while `WaitingForInput`, any submitted index `i` that differs
from the sequence element at the current input position sends the session
to `GameOver` with the score unchanged (the full resulting session is the
uniform mismatch outcome, so an out-of-range index behaves exactly like a
wrong in-range tile, and the total function propagates no exception);
moreover, when every sequence element lies in `[0,9)`, every index outside
`[0,9)` is such a mismatch. -/
theorem mismatch_and_out_of_range_gameover (authed : Bool) (s : GameSession)
    (i : Int) (hw : s.state = GameState.WaitingForInput)
    (hm : s.sequence[s.userSequence.length]? ≠ some i) :
    (handleTileClick authed s i).1.state = GameState.GameOver ∧
    (handleTileClick authed s i).1.score = s.score ∧
    handleTileClick authed s i =
      ({ s with userSequence := s.userSequence ++ [i]
                state := GameState.GameOver },
       [Effect.setActiveTile i, Effect.playTileSound i] ++
         (if authed then
            [Effect.insertGameRecord s.score s.difficulty
              ((s.sequence.length : Int) - 1)]
          else [])) ∧
    (∀ j : Int, (j < 0 ∨ 9 ≤ j) → (∀ e ∈ s.sequence, 0 ≤ e ∧ e < 9) →
      s.sequence[s.userSequence.length]? ≠ some j) := by
  have h := handleTileClick_mismatch authed s i hw hm
  refine ⟨by rw [h], by rw [h], h, ?_⟩
  intro j hj hrange hmem
  have : j ∈ s.sequence := List.getElem?_mem hmem
  have := hrange j this
  omega

/-- Witness for C3: the out-of-range index 42 submitted against `[2,7,5]`
with two correct entries already buffered ends the game at the old
score 4. -/
theorem mismatch_and_out_of_range_gameover_witness :
    (handleTileClick true
        { state := GameState.WaitingForInput, sequence := [2, 7, 5],
          userSequence := [2, 7], score := 4, highScore := 0,
          multiplier := 1, difficulty := Difficulty.easy } 42).1.state =
      GameState.GameOver :=
  (mismatch_and_out_of_range_gameover true _ 42 (by decide) (by decide)).1

/-! ### C6: the persisted length field on game over -/

/-- Counterexample to C6 as stated: a mismatch while the sequence is
`[2,7,5]` (submitting `9` where `5` is expected) emits a `games` record
whose streak field is `2`, not the sequence length `3`: no effect carrying
the value `3` is emitted at all. -/
theorem sessionEnded_length_counterexample :
    (handleTileClick true
        { state := GameState.WaitingForInput, sequence := [2, 7, 5],
          userSequence := [2, 7], score := 2, highScore := 0,
          multiplier := 1, difficulty := Difficulty.easy } 9).2 =
      [Effect.setActiveTile 9, Effect.playTileSound 9,
       Effect.insertGameRecord 2 Difficulty.easy 2] ∧
    Effect.insertGameRecord 2 Difficulty.easy 3 ∉
      (handleTileClick true
        { state := GameState.WaitingForInput, sequence := [2, 7, 5],
          userSequence := [2, 7], score := 2, highScore := 0,
          multiplier := 1, difficulty := Difficulty.easy } 9).2 := by
  decide

/-- Claim C6 amended: on every transition into `GameOver` with an
authenticated user, the persisted record carries the current score, the
difficulty, and a streak field equal to `len(sequence) - 1` — one less
than the sequence length at termination; in particular a mismatch at
sequence `[2,7,5]` records streak `2`. -/
theorem sessionEnded_records_length_minus_one (authed : Bool)
    (s : GameSession) :
    ((handleGameOver authed s).2 =
      if authed then
        [Effect.insertGameRecord s.score s.difficulty
          ((s.sequence.length : Int) - 1)]
      else []) ∧
    (handleTileClick true
        { state := GameState.WaitingForInput, sequence := [2, 7, 5],
          userSequence := [2, 7], score := 2, highScore := 0,
          multiplier := 1, difficulty := Difficulty.easy } 9).2 =
      [Effect.setActiveTile 9, Effect.playTileSound 9,
       Effect.insertGameRecord 2 Difficulty.easy 2] := by
  exact ⟨rfl, by decide⟩

/-! ### C7: `setDifficulty` has no state guard -/

/-- Counterexample to C7 as stated: a `setDifficulty` call received while
`WaitingForInput` is not a no-op — it changes the session. -/
theorem setDifficulty_outside_idle_counterexample :
    setDifficulty
        { state := GameState.WaitingForInput, sequence := [2],
          userSequence := [], score := 0, highScore := 0, multiplier := 1,
          difficulty := Difficulty.easy } Difficulty.hard ≠
      { state := GameState.WaitingForInput, sequence := [2],
        userSequence := [], score := 0, highScore := 0, multiplier := 1,
        difficulty := Difficulty.easy } := by
  decide

/-- Claim C7 amended: the provider's `setDifficulty` is the raw state
setter and carries no state guard — in every state (also
`ShowingSequence`, `WaitingForInput` and `GameOver`) it updates the
difficulty to the requested level, leaving the other fields unchanged; the
Idle-only restriction exists solely in the UI layer, whose difficulty
selector buttons are disabled exactly when the state is not `Idle`. -/
theorem setDifficulty_unguarded (s : GameSession) (level : Difficulty) :
    (setDifficulty s level).difficulty = level ∧
    (setDifficulty s level).state = s.state ∧
    (setDifficulty s level).sequence = s.sequence ∧
    (setDifficulty s level).userSequence = s.userSequence ∧
    (setDifficulty s level).score = s.score ∧
    (setDifficulty s level).highScore = s.highScore ∧
    (difficultySelectorDisabled s = true ↔ s.state ≠ GameState.Idle) := by
  refine ⟨rfl, rfl, rfl, rfl, rfl, rfl, ?_⟩
  simp [difficultySelectorDisabled]

/-! ### C10: `stopGame` works from every state -/

/-- Claim C10: `stopGame` carries no state precondition: from any state it
moves the session to `GameOver` (all other fields unchanged) and, for an
authenticated user, persists a record with the current score and a streak
of `len(sequence) - 1`; from the initial `Idle` state this records score 0
with streak `-1`, and a second `stopGame` on the resulting `GameOver`
state emits the identical record again. -/
theorem stopGame_any_state (authed : Bool) (s : GameSession) :
    ((stopGame authed s).1 = { s with state := GameState.GameOver }) ∧
    ((stopGame authed s).2 =
      if authed then
        [Effect.insertGameRecord s.score s.difficulty
          ((s.sequence.length : Int) - 1)]
      else []) ∧
    ((stopGame true (initialSession Difficulty.easy)).2 =
      [Effect.insertGameRecord 0 Difficulty.easy (-1)]) ∧
    ((stopGame true (stopGame true (initialSession Difficulty.easy)).1).2 =
      [Effect.insertGameRecord 0 Difficulty.easy (-1)]) := by
  exact ⟨rfl, rfl, by decide, by decide⟩

/-! ### C8: the reveal pass -/

theorem revealSchedule_getElem (seq : List Int) (fl pa i : Nat) :
    (revealSchedule seq fl pa)[i]? =
      (seq[i]?).map fun t =>
        { tile := t, onAt := i * (fl + pa), offAt := i * (fl + pa) + fl,
          entersWaiting := i == seq.length - 1 } := by
  simp only [revealSchedule, List.getElem?_map, List.getElem?_enum]
  cases seq[i]? <;> rfl

/-- Claim C8: every reveal pass schedules the tiles of the entire current
sequence in order from its first element; each step's activation strictly
precedes its deactivation, which strictly precedes the next activation
(full on+off cycle before the next tile starts); and the transition to
`WaitingForInput` is attached exactly to the last step, whose
deactivation time bounds every step's deactivation time from above. -/
theorem reveal_plays_whole_sequence (d : Difficulty) (seq : List Int)
    (fl pa : Nat) (hfl : fl = (getDifficultySettings d).flashDelay)
    (hpa : pa = (getDifficultySettings d).pauseDelay) :
    ((revealSchedule seq fl pa).map RevealStep.tile = seq) ∧
    (∀ i a b, (revealSchedule seq fl pa)[i]? = some a →
        (revealSchedule seq fl pa)[i + 1]? = some b →
        a.onAt < a.offAt ∧ a.offAt < b.onAt) ∧
    (∀ i a, (revealSchedule seq fl pa)[i]? = some a →
        ((a.entersWaiting = true ↔ i = seq.length - 1) ∧
          a.offAt ≤ (seq.length - 1) * (fl + pa) + fl)) := by
  refine ⟨?_, ?_, ?_⟩
  · simp [revealSchedule, List.map_map, Function.comp_def, List.enum_map_snd]
  · intro i a b ha hb
    rw [revealSchedule_getElem] at ha hb
    rcases Option.map_eq_some'.1 ha with ⟨x, hx, rfl⟩
    rcases Option.map_eq_some'.1 hb with ⟨y, hy, rfl⟩
    cases d <;> simp_all [getDifficultySettings] <;> omega
  · intro i a ha
    rw [revealSchedule_getElem] at ha
    rcases Option.map_eq_some'.1 ha with ⟨x, hx, rfl⟩
    have hi : i < seq.length := by
      by_contra hge
      rw [List.getElem?_eq_none (by omega)] at hx
      cases hx
    refine ⟨by simp, ?_⟩
    cases d <;> simp_all [getDifficultySettings] <;> omega

/-- Witness for C8: with the easy-difficulty timings, the reveal of
`[3,1,4]` activates the tiles in the original order `3,1,4`. -/
theorem reveal_plays_whole_sequence_witness :
    (revealSchedule [3, 1, 4] 400 400).map RevealStep.tile = [3, 1, 4] :=
  (reveal_plays_whole_sequence Difficulty.easy [3, 1, 4] 400 400 rfl rfl).1

/-! ### C9: high-score writes -/

/-- Claim C9: a `high_scores` write with value `v` for difficulty `dv` is
emitted by a tile click exactly when the click completes the current round
and the resulting score `v` strictly exceeds the previously known high
score for the session's difficulty `dv`; concretely, on Hard with known
high score 10, completing round 4 from score 9 yields 12 and a write of
12, while completing it from score 5 yields 8 and emits no high-score
write at all. -/
theorem highScore_write_iff (authed : Bool) (s : GameSession) (i : Int)
    (v : Nat) (dv : Difficulty) :
    ((Effect.saveHighScore v dv ∈ (handleTileClick authed s i).2) ↔
      (s.state = GameState.WaitingForInput ∧
       s.sequence[s.userSequence.length]? = some i ∧
       s.userSequence.length + 1 = s.sequence.length ∧
       v = s.score + calculateMultiplier s.sequence.length
         (getDifficultySettings s.difficulty).baseMultiplier ∧
       dv = s.difficulty ∧ s.highScore < v)) ∧
    ((handleTileClick true
        { state := GameState.WaitingForInput, sequence := [2, 7, 5, 1],
          userSequence := [2, 7, 5], score := 9, highScore := 10,
          multiplier := 3, difficulty := Difficulty.hard } 1).2 =
      [Effect.setActiveTile 1, Effect.playTileSound 1,
       Effect.saveHighScore 12 Difficulty.hard,
       Effect.scheduleAddToSequence]) ∧
    ((handleTileClick true
        { state := GameState.WaitingForInput, sequence := [2, 7, 5, 1],
          userSequence := [2, 7, 5], score := 5, highScore := 10,
          multiplier := 3, difficulty := Difficulty.hard } 1).2 =
      [Effect.setActiveTile 1, Effect.playTileSound 1,
       Effect.scheduleAddToSequence]) := by
  refine ⟨?_, by decide, by decide⟩
  by_cases hw : s.state = GameState.WaitingForInput
  · by_cases hm : s.sequence[s.userSequence.length]? = some i
    · by_cases hl : s.userSequence.length + 1 = s.sequence.length
      · rw [handleTileClick_complete authed s i hw hm hl]
        constructor
        · intro h
          simp only [List.mem_append, List.mem_singleton,
            List.mem_cons, List.not_mem_nil, or_false] at h
          rcases h with ((h | h) | h) | h
          · cases h
          · cases h
          · split_ifs at h with hgt
            · simp only [List.mem_singleton] at h
              cases h
              exact ⟨hw, hm, hl, rfl, rfl, hgt⟩
            · simp at h
          · cases h
        · rintro ⟨-, -, -, rfl, rfl, hgt⟩
          simp [hgt]
      · rw [handleTileClick_middle authed s i hw hm hl]
        simp [hl]
    · rw [handleTileClick_mismatch authed s i hw hm]
      constructor
      · intro h
        simp only [List.mem_append, List.mem_cons, List.not_mem_nil,
          or_false, List.mem_singleton] at h
        rcases h with (h | h) | h
        · cases h
        · cases h
        · split_ifs at h
          · simp only [List.mem_singleton] at h
            cases h
          · simp at h
      · rintro ⟨-, hm2, -⟩
        exact absurd hm2 hm
  · rw [handleTileClick_not_waiting authed s i hw]
    simp [hw]

/-- Witness for C9's characterisation: the Hard-difficulty round that
raises the score from 9 to 12 past the known high score 10 does emit a
write of 12. -/
theorem highScore_write_iff_witness :
    Effect.saveHighScore 12 Difficulty.hard ∈
      (handleTileClick true
        { state := GameState.WaitingForInput, sequence := [2, 7, 5, 1],
          userSequence := [2, 7, 5], score := 9, highScore := 10,
          multiplier := 3, difficulty := Difficulty.hard } 1).2 :=
  ((highScore_write_iff true
      { state := GameState.WaitingForInput, sequence := [2, 7, 5, 1],
        userSequence := [2, 7, 5], score := 9, highScore := 10,
        multiplier := 3, difficulty := Difficulty.hard } 1 12
      Difficulty.hard).1).2
    (by refine ⟨rfl, by decide, by decide, by decide, rfl, by decide⟩)

/-! ### C2: score accumulation over consecutive successful rounds -/

theorem clickAll_nil (authed : Bool) (s : GameSession) :
    clickAll authed s [] = s := rfl

theorem clickAll_cons (authed : Bool) (s : GameSession) (t : Int)
    (ts : List Int) :
    clickAll authed s (t :: ts) =
      clickAll authed (handleTileClick authed s t).1 ts := rfl

/-- Echoing the remaining suffix of the sequence from a matching buffer
completes the round: the score grows by the recomputed multiplier, the
multiplier and high score are updated, and the machine stays in
`WaitingForInput` with the full sequence buffered. -/
theorem clickAll_echo (authed : Bool) (rest : List Int) :
    ∀ (done : List Int) (s : GameSession), rest ≠ [] →
    s.state = GameState.WaitingForInput →
    s.userSequence = done →
    s.sequence = done ++ rest →
    clickAll authed s rest =
      { s with
        userSequence := done ++ rest
        multiplier := calculateMultiplier s.sequence.length
          (getDifficultySettings s.difficulty).baseMultiplier
        score := s.score + calculateMultiplier s.sequence.length
          (getDifficultySettings s.difficulty).baseMultiplier
        highScore :=
          if s.score + calculateMultiplier s.sequence.length
              (getDifficultySettings s.difficulty).baseMultiplier > s.highScore
          then s.score + calculateMultiplier s.sequence.length
              (getDifficultySettings s.difficulty).baseMultiplier
          else s.highScore } := by
  induction rest with
  | nil => intro done s hne _ _ _; exact absurd rfl hne
  | cons a tail ih =>
    intro done s _ hw hbuf hseq
    cases tail with
    | nil =>
      have hm : s.sequence[s.userSequence.length]? = some a := by
        rw [hseq, hbuf]
        exact List.getElem?_concat_length done a
      have hl : s.userSequence.length + 1 = s.sequence.length := by
        rw [hseq, hbuf]; simp
      rw [clickAll_cons, handleTileClick_complete authed s a hw hm hl,
        clickAll_nil]
      rw [hbuf]
    | cons b tail2 =>
      have hm : s.sequence[s.userSequence.length]? = some a := by
        rw [hseq, hbuf]
        rw [List.getElem?_append_right (Nat.le_refl done.length)]
        simp
      have hl : s.userSequence.length + 1 ≠ s.sequence.length := by
        rw [hseq, hbuf]; simp
      rw [clickAll_cons, handleTileClick_middle authed s a hw hm hl]
      dsimp only
      rw [hbuf]
      have hres := ih (done ++ [a]) { s with userSequence := done ++ [a] }
        (by simp) hw rfl (by simp [hseq])
      rw [hres]
      simp

/-- Scores over consecutive successful rounds: playing on from a
`WaitingForInput` state with an empty buffer and a sequence of length `L`,
completing `k + 1` rounds in a row adds the multiplier of every length in
`[L, L + k]` to the score. -/
theorem playRounds_score (authed : Bool) (ts : List Int) :
    ∀ s : GameSession,
    s.state = GameState.WaitingForInput →
    s.userSequence = [] →
    s.sequence ≠ [] →
    (playRounds authed s ts).score =
      s.score + ∑ l in Finset.Icc s.sequence.length
          (s.sequence.length + ts.length),
        calculateMultiplier l (getDifficultySettings s.difficulty).baseMultiplier := by
  induction ts with
  | nil =>
    intro s hw hbuf hne
    have h := clickAll_echo authed s.sequence [] s hne hw hbuf (by simp)
    simp only [playRounds, completeRound, h]
    simp [Finset.Icc_self]
  | cons t ts ih =>
    intro s hw hbuf hne
    have h := clickAll_echo authed s.sequence [] s hne hw hbuf (by simp)
    simp only [playRounds, completeRound, h]
    rw [ih _ rfl rfl (by simp [addToSequence, revealDone])]
    simp only [revealDone, addToSequence]
    simp only [List.length_append, List.length_singleton, List.length_nil]
    have hsum :
        ∑ l in Finset.Icc s.sequence.length (s.sequence.length + (ts.length + 1)),
            calculateMultiplier l (getDifficultySettings s.difficulty).baseMultiplier =
          calculateMultiplier s.sequence.length
              (getDifficultySettings s.difficulty).baseMultiplier +
            ∑ l in Finset.Icc (s.sequence.length + 1)
                (s.sequence.length + 1 + ts.length),
              calculateMultiplier l (getDifficultySettings s.difficulty).baseMultiplier := by
      have hb : s.sequence.length + (ts.length + 1) =
          s.sequence.length + 1 + ts.length := by omega
      rw [hb]
      have hins : Finset.Icc s.sequence.length (s.sequence.length + 1 + ts.length) =
          insert s.sequence.length
            (Finset.Icc (s.sequence.length + 1) (s.sequence.length + 1 + ts.length)) := by
        rw [Nat.Icc_succ_left, Finset.Ioc_insert_left (by omega)]
      rw [hins, Finset.sum_insert (by simp)]
    simp only [List.length_cons]
    omega

/-- Claim C2: starting a session at any constant difficulty and completing
`N` consecutive rounds (sequence lengths `1..N`, each round adding
`round(1 * multiplier)` points) leaves the score equal to
`∑ L in [1..N], baseMultiplier * lengthMultiplier(L)`; in particular on
Easy the score after completing round 5 is 6. -/
theorem score_accumulation (authed : Bool) (d : Difficulty) (t0 : Int)
    (ts : List Int) :
    ((playRounds authed (revealDone (startGame (initialSession d) t0)) ts).score =
      ∑ l in Finset.Icc 1 (ts.length + 1),
        calculateMultiplier l (getDifficultySettings d).baseMultiplier) ∧
    ((playRounds true (revealDone (startGame (initialSession Difficulty.easy) 2))
        [7, 5, 0, 3]).score = 6) := by
  refine ⟨?_, by decide⟩
  have h := playRounds_score authed ts
    (revealDone (startGame (initialSession d) t0)) rfl rfl (by
      simp [revealDone, startGame])
  simpa [revealDone, startGame, initialSession, Nat.add_comm] using h

/-! ### C5: the input buffer is an initial segment of the sequence -/

theorem sessionInv_init (d : Difficulty) : SessionInv (initialSession d) := by
  constructor <;> intro h <;> simp [initialSession] at h

theorem sessionInv_preserved (authed : Bool) {s s' : GameSession}
    (hinv : SessionInv s) (hstep : Step authed s s') : SessionInv s' := by
  cases hstep with
  | start t =>
    constructor
    · intro _; rfl
    · intro h; simp [startGame] at h
  | reveal h =>
    constructor
    · intro h2; simp [revealDone] at h2
    · intro _
      have hb := hinv.1 h
      simp [revealDone, hb]
  | click t =>
    by_cases hw : s.state = GameState.WaitingForInput
    · by_cases hm : s.sequence[s.userSequence.length]? = some t
      · have hpre := hinv.2 hw
        by_cases hl : s.userSequence.length + 1 = s.sequence.length
        · rw [handleTileClick_complete authed s t hw hm hl]
          constructor
          · intro h2; simp only at h2; rw [hw] at h2; cases h2
          · intro _
            simp only [List.length_append, List.length_singleton]
            rw [List.take_succ, ← hpre, hm]
            rfl
        · rw [handleTileClick_middle authed s t hw hm hl]
          constructor
          · intro h2; simp only at h2; rw [hw] at h2; cases h2
          · intro _
            simp only [List.length_append, List.length_singleton]
            rw [List.take_succ, ← hpre, hm]
            rfl
      · rw [handleTileClick_mismatch authed s t hw (by exact hm)]
        constructor <;> intro h2 <;> simp only at h2 <;> cases h2
    · rw [handleTileClick_not_waiting authed s t hw]
      exact hinv
  | addTile t h =>
    constructor
    · intro _; rfl
    · intro h2; simp [addToSequence] at h2
  | stop =>
    constructor <;> intro h2 <;> simp [stopGame, handleGameOver] at h2
  | reset =>
    constructor <;> intro h2 <;> simp [resetGame] at h2
  | setDiff d => exact hinv
  | fetchHS n => exact hinv

theorem reachable_sessionInv (authed : Bool) {s : GameSession}
    (hr : Reachable authed s) : SessionInv s := by
  induction hr with
  | init => exact sessionInv_init Difficulty.easy
  | step hr hstep ih => exact sessionInv_preserved authed ih hstep

/-- Claim C5: in every reachable session state in `WaitingForInput`, the
input buffer equals the initial segment `sequence[0 : len(userInputBuffer)]`
of the sequence; the submission that causes `GameOver` appends its
mismatching index only in the resulting `GameOver` state, so the equality
holds throughout `WaitingForInput`. -/
theorem waiting_buffer_initial_segment (authed : Bool) (s : GameSession)
    (hr : Reachable authed s) (hw : s.state = GameState.WaitingForInput) :
    s.userSequence = s.sequence.take s.userSequence.length :=
  (reachable_sessionInv authed hr).2 hw

/-- Witness for C5: the reachable state after `start` drawing tile 2 and a
finished reveal is `WaitingForInput` with the empty buffer as the length-0
initial segment of `[2]`. -/
theorem waiting_buffer_initial_segment_witness :
    (revealDone (startGame (initialSession Difficulty.easy) 2)).userSequence =
      (revealDone (startGame (initialSession Difficulty.easy) 2)).sequence.take
        (revealDone (startGame (initialSession Difficulty.easy) 2)).userSequence.length :=
  waiting_buffer_initial_segment true
    (revealDone (startGame (initialSession Difficulty.easy) 2))
    (Reachable.step
      (Reachable.step Reachable.init
        (Step.start (initialSession Difficulty.easy) 2))
      (Step.reveal (startGame (initialSession Difficulty.easy) 2) rfl))
    rfl

end SimonSays
